import Mathlib

/-!
Shallow embedding of the transaction-processing core of the `payments`
repository (`src/compute.rs`, `src/data.rs`).  Monetary amounts
(`rust_decimal::Decimal`) are modelled as exact rationals, client and
transaction identifiers as natural numbers, and the two `HashMap`s of
`Accounts` as functions into `Option`.  The mutating method
`use_tx(&mut self, tx) -> Result<(), Error>` is modelled as a pure
function returning the new state together with an optional error
(`none` = `Ok(())`); the state component also reflects mutations the
Rust code performs before returning an error (the `entry().or_insert`
account creation and the `txset.insert` in the Deposit/Withdrawal
branches).
-/

namespace Payments

abbrev ClientId := Nat
abbrev TxId := Nat
abbrev Amount := ℚ

/-- `Account` from src/data.rs (the derived `total` field is computed only
at serialization time and is not part of the stored state). -/
structure Account where
  client : ClientId
  available : Amount
  held : Amount
  locked : Bool
deriving DecidableEq, Repr

/-- `TxType` from src/data.rs. -/
inductive TxType where
  | Deposit
  | Withdrawal
  | Dispute
  | Resolve
  | Chargeback
deriving DecidableEq, Repr

/-- `Transaction` from src/data.rs. -/
structure Transaction where
  txtype : TxType
  client : ClientId
  id : TxId
  amount : Option Amount
deriving DecidableEq, Repr

/-- `Error` from src/data.rs. -/
inductive Error where
  | DuplicateTransaction (id : TxId)
  | TransactionNotFound (id : TxId)
  | InsufficientFunds (asked available : Amount)
  | AccountLocked
  | NegativeAmount
  | MissingAmount
  | UnattendedforAmount
  | WrongDispute
  | DisputeMismatch
deriving DecidableEq, Repr

/-- The `Accounts` struct from src/compute.rs: the account map and the
transaction-history map (`txset`), both modelled as functions into
`Option`. -/
structure Accounts where
  accounts : ClientId → Option Account
  txset : TxId → Option Transaction

/-- `Accounts::new()`. -/
def Accounts.new : Accounts := ⟨fun _ => none, fun _ => none⟩

/-- Point update of a map, modelling `HashMap::insert` (and the write-back
of the mutably borrowed account entry). -/
def updMap {β : Type} (f : Nat → Option β) (k : Nat) (v : β) : Nat → Option β :=
  fun x => if x = k then some v else f x

/-- The account value `entry(tx.client).or_insert(Account { client: tx.client,
..Account::default() })` produces when the client is absent. -/
def Account.fresh (c : ClientId) : Account := ⟨c, 0, 0, false⟩

/-- The account the `entry(...).or_insert(...)` call yields: the stored one
if present, else a fresh default for that client. -/
def acctOr (s : Accounts) (c : ClientId) : Account :=
  (s.accounts c).getD (Account.fresh c)

/-- The state right after `entry(tx.client).or_insert(...)`: the account
map now surely has an entry for `c` (the old one if present, else the
fresh default); the history map is untouched. -/
def orInsert (s : Accounts) (c : ClientId) : Accounts :=
  ⟨updMap s.accounts c (acctOr s c), s.txset⟩

/-- The `Deposit` arm of the `match` in `use_tx` (src/compute.rs lines
50-56).  `s1` is the state after the `entry().or_insert` and `account`
the (borrowed) account of `tx.client`.  Note the Rust code runs
`txset.insert(tx.id, tx)` — which replaces any previous entry — before
the duplicate-id and missing-amount checks. -/
def depositArm (s1 : Accounts) (account : Account) (tx : Transaction) :
    Accounts × Option Error :=
  let old := s1.txset tx.id
  let s2 : Accounts := ⟨s1.accounts, updMap s1.txset tx.id tx⟩
  if old.isSome then (s2, some (.DuplicateTransaction tx.id)) else
  match tx.amount with
  | none => (s2, some .MissingAmount)
  | some amount =>
    (⟨updMap s2.accounts tx.client { account with available := account.available + amount },
      s2.txset⟩, none)

/-- The `Withdrawal` arm (src/compute.rs lines 57-69); as in the Rust
code the `txset.insert` precedes all checks of this arm. -/
def withdrawalArm (s1 : Accounts) (account : Account) (tx : Transaction) :
    Accounts × Option Error :=
  let old := s1.txset tx.id
  let s2 : Accounts := ⟨s1.accounts, updMap s1.txset tx.id tx⟩
  if old.isSome then (s2, some (.DuplicateTransaction tx.id)) else
  match tx.amount with
  | none => (s2, some .MissingAmount)
  | some amount =>
    if account.available < amount then
      (s2, some (.InsufficientFunds amount account.available))
    else
      (⟨updMap s2.accounts tx.client { account with available := account.available - amount },
        s2.txset⟩, none)

/-- The `Dispute` arm (src/compute.rs lines 70-93). -/
def disputeArm (s1 : Accounts) (account : Account) (tx : Transaction) :
    Accounts × Option Error :=
  if tx.amount.isSome then (s1, some .UnattendedforAmount) else
  match s1.txset tx.id with
  | none => (s1, some (.TransactionNotFound tx.id))
  | some t =>
    if t.txtype ≠ .Deposit then (s1, some .WrongDispute) else
    if t.client ≠ account.client then (s1, some .DisputeMismatch) else
    match t.amount with
    | none => (s1, some .MissingAmount)
    | some amount =>
      if account.available < amount then
        (s1, some (.InsufficientFunds amount account.available))
      else
        (⟨updMap s1.accounts tx.client
            { account with available := account.available - amount,
                           held := account.held + amount },
          s1.txset⟩, none)

/-- The `Resolve` arm (src/compute.rs lines 94-117). -/
def resolveArm (s1 : Accounts) (account : Account) (tx : Transaction) :
    Accounts × Option Error :=
  if tx.amount.isSome then (s1, some .UnattendedforAmount) else
  match s1.txset tx.id with
  | none => (s1, some (.TransactionNotFound tx.id))
  | some t =>
    if t.txtype ≠ .Deposit then (s1, some .WrongDispute) else
    if t.client ≠ account.client then (s1, some .DisputeMismatch) else
    match t.amount with
    | none => (s1, some .MissingAmount)
    | some amount =>
      if account.held < amount then
        (s1, some (.InsufficientFunds amount account.held))
      else
        (⟨updMap s1.accounts tx.client
            { account with available := account.available + amount,
                           held := account.held - amount },
          s1.txset⟩, none)

/-- The `Chargeback` arm (src/compute.rs lines 118-141): on success the
held balance drops by the referenced amount and the account is locked;
available is not touched. -/
def chargebackArm (s1 : Accounts) (account : Account) (tx : Transaction) :
    Accounts × Option Error :=
  if tx.amount.isSome then (s1, some .UnattendedforAmount) else
  match s1.txset tx.id with
  | none => (s1, some (.TransactionNotFound tx.id))
  | some t =>
    if t.txtype ≠ .Deposit then (s1, some .WrongDispute) else
    if t.client ≠ account.client then (s1, some .DisputeMismatch) else
    match t.amount with
    | none => (s1, some .MissingAmount)
    | some amount =>
      if account.held < amount then
        (s1, some (.InsufficientFunds amount account.held))
      else
        (⟨updMap s1.accounts tx.client
            { account with held := account.held - amount, locked := true },
          s1.txset⟩, none)

/-- `use_tx` from src/compute.rs, lines 34-144.  Returns the post-call
state and `none` for `Ok(())` or `some e` for `Err(e)`.  The state
threading mirrors the Rust mutation order: the negative-amount check
precedes account creation, and the `entry().or_insert` runs before the
locked check, so a failing call may still have created the account. -/
def use_tx (s : Accounts) (tx : Transaction) : Accounts × Option Error :=
  if (tx.amount.getD 0) < 0 then (s, some .NegativeAmount) else
  let account := acctOr s tx.client
  let s1 : Accounts := orInsert s tx.client
  if account.locked then (s1, some .AccountLocked) else
  match tx.txtype with
  | .Deposit => depositArm s1 account tx
  | .Withdrawal => withdrawalArm s1 account tx
  | .Dispute => disputeArm s1 account tx
  | .Resolve => resolveArm s1 account tx
  | .Chargeback => chargebackArm s1 account tx

/-- Folding `use_tx` over an input sequence, as the driver loop in
src/main.rs does (errors are logged and processing continues). -/
def applyAll (s : Accounts) : List Transaction → Accounts
  | [] => s
  | tx :: rest => applyAll (use_tx s tx).1 rest

/-- A ledger state reachable from a fresh `Accounts::new()` by some input
sequence. -/
def Reachable (s : Accounts) : Prop := ∃ txs, s = applyAll Accounts.new txs

/-! ### Basic map lemmas -/

attribute [local semireducible] Rat.add Rat.sub

theorem updMap_self {β : Type} (f : Nat → Option β) (k : Nat) (v : β) :
    updMap f k v k = some v := by
  simp [updMap]

theorem updMap_other {β : Type} (f : Nat → Option β) {k x : Nat} (v : β)
    (h : x ≠ k) : updMap f k v x = f x := by
  simp [updMap, h]

theorem updMap_of_eq {β : Type} {f : Nat → Option β} {k : Nat} {v : β}
    (h : f k = some v) : ∀ x, updMap f k v x = f x := by
  intro x
  by_cases hx : x = k
  · subst hx; rw [updMap_self, h]
  · exact updMap_other f v hx

theorem orInsert_txset (s : Accounts) (c : ClientId) :
    (orInsert s c).txset = s.txset := rfl

theorem orInsert_self (s : Accounts) (c : ClientId) :
    (orInsert s c).accounts c = some (acctOr s c) := updMap_self ..

theorem orInsert_keeps (s : Accounts) {c : ClientId} {a : Account}
    (h : s.accounts c = some a) :
    ∀ x, (orInsert s c).accounts x = s.accounts x := by
  have hac : acctOr s c = a := by simp [acctOr, h]
  intro x
  show updMap s.accounts c (acctOr s c) x = s.accounts x
  rw [hac]
  exact updMap_of_eq h x

/-! ### Invariants -/

/-- Non-negativity of the balances of every stored account (§3 of the
spec: available ≥ 0 and held ≥ 0). -/
def BalInv (f : ClientId → Option Account) : Prop :=
  ∀ c a, f c = some a → 0 ≤ a.available ∧ 0 ≤ a.held

/-- Every amount recorded in the history map is non-negative (entries are
only inserted after the shared negative-amount check). -/
def TxInv (g : TxId → Option Transaction) : Prop :=
  ∀ i t x, g i = some t → t.amount = some x → 0 ≤ x

/-- Every stored account's `client` field agrees with its key (accounts
are only ever created as `Account { client: tx.client, .. }` under key
`tx.client` and the field is never written afterwards). -/
def ClientInv (f : ClientId → Option Account) : Prop :=
  ∀ c a, f c = some a → a.client = c

theorem BalInv_upd {f : ClientId → Option Account} (hf : BalInv f)
    {c : ClientId} {a : Account} (ha : 0 ≤ a.available) (hh : 0 ≤ a.held) :
    BalInv (updMap f c a) := by
  intro x b hx
  by_cases hxc : x = c
  · subst hxc; rw [updMap_self] at hx; cases hx; exact ⟨ha, hh⟩
  · rw [updMap_other f a hxc] at hx; exact hf x b hx

theorem TxInv_upd {g : TxId → Option Transaction} (hg : TxInv g)
    {i : TxId} {t : Transaction} (ht : ∀ x, t.amount = some x → 0 ≤ x) :
    TxInv (updMap g i t) := by
  intro j u x hj hx
  by_cases hji : j = i
  · subst hji; rw [updMap_self] at hj; cases hj; exact ht x hx
  · rw [updMap_other g t hji] at hj; exact hg j u x hj hx

theorem ClientInv_upd {f : ClientId → Option Account} (hf : ClientInv f)
    {c : ClientId} {a : Account} (ha : a.client = c) :
    ClientInv (updMap f c a) := by
  intro x b hx
  by_cases hxc : x = c
  · subst hxc; rw [updMap_self] at hx; cases hx; exact ha
  · rw [updMap_other f a hxc] at hx; exact hf x b hx

theorem acctOr_nonneg {s : Accounts} (hb : BalInv s.accounts) (c : ClientId) :
    0 ≤ (acctOr s c).available ∧ 0 ≤ (acctOr s c).held := by
  unfold acctOr
  cases hc : s.accounts c with
  | none => simp [Account.fresh]
  | some a => simpa using hb c a hc

theorem acctOr_client {s : Accounts} (hc : ClientInv s.accounts) (c : ClientId) :
    (acctOr s c).client = c := by
  unfold acctOr
  cases h : s.accounts c with
  | none => simp [Account.fresh]
  | some a => simpa using hc c a h

/-! ### Preservation of the balance and history invariants (claim C2) -/

theorem depositArm_inv {s1 : Accounts} {account : Account} {tx : Transaction}
    (hb : BalInv s1.accounts) (hg : TxInv s1.txset)
    (hav : 0 ≤ account.available) (hh : 0 ≤ account.held)
    (hnn : ∀ x, tx.amount = some x → 0 ≤ x) :
    BalInv (depositArm s1 account tx).1.accounts ∧
      TxInv (depositArm s1 account tx).1.txset := by
  unfold depositArm
  simp only
  split
  · exact ⟨hb, TxInv_upd hg hnn⟩
  · split
    · exact ⟨hb, TxInv_upd hg hnn⟩
    · next amount heq =>
      exact ⟨BalInv_upd hb (add_nonneg hav (hnn amount heq)) hh, TxInv_upd hg hnn⟩

theorem withdrawalArm_inv {s1 : Accounts} {account : Account} {tx : Transaction}
    (hb : BalInv s1.accounts) (hg : TxInv s1.txset)
    (hav : 0 ≤ account.available) (hh : 0 ≤ account.held)
    (hnn : ∀ x, tx.amount = some x → 0 ≤ x) :
    BalInv (withdrawalArm s1 account tx).1.accounts ∧
      TxInv (withdrawalArm s1 account tx).1.txset := by
  unfold withdrawalArm
  simp only
  split
  · exact ⟨hb, TxInv_upd hg hnn⟩
  · split
    · exact ⟨hb, TxInv_upd hg hnn⟩
    · split
      · exact ⟨hb, TxInv_upd hg hnn⟩
      · next hlt =>
        refine ⟨BalInv_upd hb ?_ hh, TxInv_upd hg hnn⟩
        show 0 ≤ account.available - _
        linarith [not_lt.mp hlt]

theorem disputeArm_inv {s1 : Accounts} {account : Account} {tx : Transaction}
    (hb : BalInv s1.accounts) (hg : TxInv s1.txset)
    (hav : 0 ≤ account.available) (hh : 0 ≤ account.held) :
    BalInv (disputeArm s1 account tx).1.accounts ∧
      TxInv (disputeArm s1 account tx).1.txset := by
  unfold disputeArm
  split
  · exact ⟨hb, hg⟩
  · split
    · exact ⟨hb, hg⟩
    · next t hlook =>
      split
      · exact ⟨hb, hg⟩
      · split
        · exact ⟨hb, hg⟩
        · split
          · exact ⟨hb, hg⟩
          · next amount hamt =>
            have h0 : 0 ≤ amount := hg tx.id t amount hlook hamt
            split
            · exact ⟨hb, hg⟩
            · next hlt =>
              refine ⟨BalInv_upd hb ?_ ?_, hg⟩
              · show 0 ≤ account.available - amount
                linarith [not_lt.mp hlt]
              · show 0 ≤ account.held + amount
                linarith

theorem resolveArm_inv {s1 : Accounts} {account : Account} {tx : Transaction}
    (hb : BalInv s1.accounts) (hg : TxInv s1.txset)
    (hav : 0 ≤ account.available) (hh : 0 ≤ account.held) :
    BalInv (resolveArm s1 account tx).1.accounts ∧
      TxInv (resolveArm s1 account tx).1.txset := by
  unfold resolveArm
  split
  · exact ⟨hb, hg⟩
  · split
    · exact ⟨hb, hg⟩
    · next t hlook =>
      split
      · exact ⟨hb, hg⟩
      · split
        · exact ⟨hb, hg⟩
        · split
          · exact ⟨hb, hg⟩
          · next amount hamt =>
            have h0 : 0 ≤ amount := hg tx.id t amount hlook hamt
            split
            · exact ⟨hb, hg⟩
            · next hlt =>
              refine ⟨BalInv_upd hb ?_ ?_, hg⟩
              · show 0 ≤ account.available + amount
                linarith
              · show 0 ≤ account.held - amount
                linarith [not_lt.mp hlt]

theorem chargebackArm_inv {s1 : Accounts} {account : Account} {tx : Transaction}
    (hb : BalInv s1.accounts) (hg : TxInv s1.txset)
    (hav : 0 ≤ account.available) (hh : 0 ≤ account.held) :
    BalInv (chargebackArm s1 account tx).1.accounts ∧
      TxInv (chargebackArm s1 account tx).1.txset := by
  unfold chargebackArm
  split
  · exact ⟨hb, hg⟩
  · split
    · exact ⟨hb, hg⟩
    · next t hlook =>
      split
      · exact ⟨hb, hg⟩
      · split
        · exact ⟨hb, hg⟩
        · split
          · exact ⟨hb, hg⟩
          · next amount hamt =>
            split
            · exact ⟨hb, hg⟩
            · next hlt =>
              refine ⟨BalInv_upd hb hav ?_, hg⟩
              show 0 ≤ account.held - amount
              linarith [not_lt.mp hlt]

theorem use_tx_inv {s : Accounts} (tx : Transaction)
    (hb : BalInv s.accounts) (hg : TxInv s.txset) :
    BalInv (use_tx s tx).1.accounts ∧ TxInv (use_tx s tx).1.txset := by
  unfold use_tx
  by_cases hneg : (tx.amount.getD 0) < 0
  · rw [if_pos hneg]; exact ⟨hb, hg⟩
  · rw [if_neg hneg]
    simp only
    have hnn : ∀ x, tx.amount = some x → 0 ≤ x := by
      intro x hx
      rw [hx] at hneg
      simpa using not_lt.mp hneg
    obtain ⟨hav, hh⟩ := acctOr_nonneg hb tx.client
    have hb1 : BalInv (orInsert s tx.client).accounts :=
      BalInv_upd hb hav hh
    have hg1 : TxInv (orInsert s tx.client).txset := hg
    split
    · exact ⟨hb1, hg1⟩
    · cases tx.txtype with
      | Deposit => exact depositArm_inv hb1 hg1 hav hh hnn
      | Withdrawal => exact withdrawalArm_inv hb1 hg1 hav hh hnn
      | Dispute => exact disputeArm_inv hb1 hg1 hav hh
      | Resolve => exact resolveArm_inv hb1 hg1 hav hh
      | Chargeback => exact chargebackArm_inv hb1 hg1 hav hh

theorem applyAll_inv {s : Accounts} (txs : List Transaction)
    (hb : BalInv s.accounts) (hg : TxInv s.txset) :
    BalInv (applyAll s txs).accounts ∧ TxInv (applyAll s txs).txset := by
  induction txs generalizing s with
  | nil => exact ⟨hb, hg⟩
  | cons tx rest ih =>
    obtain ⟨hb', hg'⟩ := use_tx_inv tx hb hg
    exact ih hb' hg'

/-- C2: after any finite sequence of transactions applied in order to a
fresh `Ledger`, every account in the accounts map has `available ≥ 0` and
`held ≥ 0`; violating transactions are rejected up front, balances are
never clamped. -/
theorem applyAll_balances_nonneg (txs : List Transaction) (c : ClientId)
    (a : Account) (h : (applyAll Accounts.new txs).accounts c = some a) :
    0 ≤ a.available ∧ 0 ≤ a.held := by
  have hb : BalInv Accounts.new.accounts := by
    intro c a h
    exact Option.noConfusion h
  have hg : TxInv Accounts.new.txset := by
    intro i t x h
    exact Option.noConfusion h
  exact (applyAll_inv txs hb hg).1 c a h

/-- Witness for C2 at the one-deposit input sequence. -/
theorem applyAll_balances_nonneg_witness :
    0 ≤ (Account.mk 5 100 0 false).available ∧
      0 ≤ (Account.mk 5 100 0 false).held :=
  applyAll_balances_nonneg [⟨.Deposit, 5, 1, some 100⟩] 5 ⟨5, 100, 0, false⟩
    (by decide)

/-! ### The client-field invariant -/

theorem depositArm_client {s1 : Accounts} {account : Account} {tx : Transaction}
    (hc : ClientInv s1.accounts) (ha : account.client = tx.client) :
    ClientInv (depositArm s1 account tx).1.accounts := by
  unfold depositArm
  simp only
  split
  · exact hc
  · split
    · exact hc
    · exact ClientInv_upd hc ha

theorem withdrawalArm_client {s1 : Accounts} {account : Account} {tx : Transaction}
    (hc : ClientInv s1.accounts) (ha : account.client = tx.client) :
    ClientInv (withdrawalArm s1 account tx).1.accounts := by
  unfold withdrawalArm
  simp only
  split
  · exact hc
  · split
    · exact hc
    · split
      · exact hc
      · exact ClientInv_upd hc ha

theorem disputeArm_client {s1 : Accounts} {account : Account} {tx : Transaction}
    (hc : ClientInv s1.accounts) (ha : account.client = tx.client) :
    ClientInv (disputeArm s1 account tx).1.accounts := by
  unfold disputeArm
  split
  · exact hc
  · split
    · exact hc
    · split
      · exact hc
      · split
        · exact hc
        · split
          · exact hc
          · split
            · exact hc
            · exact ClientInv_upd hc ha

theorem resolveArm_client {s1 : Accounts} {account : Account} {tx : Transaction}
    (hc : ClientInv s1.accounts) (ha : account.client = tx.client) :
    ClientInv (resolveArm s1 account tx).1.accounts := by
  unfold resolveArm
  split
  · exact hc
  · split
    · exact hc
    · split
      · exact hc
      · split
        · exact hc
        · split
          · exact hc
          · split
            · exact hc
            · exact ClientInv_upd hc ha

theorem chargebackArm_client {s1 : Accounts} {account : Account} {tx : Transaction}
    (hc : ClientInv s1.accounts) (ha : account.client = tx.client) :
    ClientInv (chargebackArm s1 account tx).1.accounts := by
  unfold chargebackArm
  split
  · exact hc
  · split
    · exact hc
    · split
      · exact hc
      · split
        · exact hc
        · split
          · exact hc
          · split
            · exact hc
            · exact ClientInv_upd hc ha

theorem use_tx_client_inv {s : Accounts} (tx : Transaction)
    (hc : ClientInv s.accounts) : ClientInv (use_tx s tx).1.accounts := by
  unfold use_tx
  by_cases hneg : (tx.amount.getD 0) < 0
  · rw [if_pos hneg]; exact hc
  · rw [if_neg hneg]
    simp only
    have ha : (acctOr s tx.client).client = tx.client := acctOr_client hc tx.client
    have hc1 : ClientInv (orInsert s tx.client).accounts := ClientInv_upd hc ha
    split
    · exact hc1
    · cases tx.txtype with
      | Deposit => exact depositArm_client hc1 ha
      | Withdrawal => exact withdrawalArm_client hc1 ha
      | Dispute => exact disputeArm_client hc1 ha
      | Resolve => exact resolveArm_client hc1 ha
      | Chargeback => exact chargebackArm_client hc1 ha

theorem applyAll_client_inv {s : Accounts} (txs : List Transaction)
    (hc : ClientInv s.accounts) : ClientInv (applyAll s txs).accounts := by
  induction txs generalizing s with
  | nil => exact hc
  | cons tx rest ih => exact ih (use_tx_client_inv tx hc)

theorem reachable_client_inv {s : Accounts} (hs : Reachable s) :
    ClientInv s.accounts := by
  obtain ⟨txs, rfl⟩ := hs
  exact applyAll_client_inv txs (fun c a h => Option.noConfusion h)

/-! ### Frame lemmas: what a call can and cannot touch -/

theorem orInsert_pres {s : Accounts} {c : ClientId} {a : Account}
    (h : s.accounts c = some a) (k : ClientId) :
    (orInsert s k).accounts c = some a := by
  by_cases hck : c = k
  · subst hck; rw [orInsert_keeps s h c]; exact h
  · show updMap s.accounts k (acctOr s k) c = some a
    rw [updMap_other _ _ hck]; exact h

theorem depositArm_accounts_other {s1 : Accounts} {account : Account}
    {tx : Transaction} {c : ClientId} (h : c ≠ tx.client) :
    (depositArm s1 account tx).1.accounts c = s1.accounts c := by
  unfold depositArm
  simp only
  split
  · rfl
  · split
    · rfl
    · exact updMap_other _ _ h

theorem withdrawalArm_accounts_other {s1 : Accounts} {account : Account}
    {tx : Transaction} {c : ClientId} (h : c ≠ tx.client) :
    (withdrawalArm s1 account tx).1.accounts c = s1.accounts c := by
  unfold withdrawalArm
  simp only
  split
  · rfl
  · split
    · rfl
    · split
      · rfl
      · exact updMap_other _ _ h

theorem disputeArm_accounts_other {s1 : Accounts} {account : Account}
    {tx : Transaction} {c : ClientId} (h : c ≠ tx.client) :
    (disputeArm s1 account tx).1.accounts c = s1.accounts c := by
  unfold disputeArm
  split
  · rfl
  · split
    · rfl
    · split
      · rfl
      · split
        · rfl
        · split
          · rfl
          · split
            · rfl
            · exact updMap_other _ _ h

theorem resolveArm_accounts_other {s1 : Accounts} {account : Account}
    {tx : Transaction} {c : ClientId} (h : c ≠ tx.client) :
    (resolveArm s1 account tx).1.accounts c = s1.accounts c := by
  unfold resolveArm
  split
  · rfl
  · split
    · rfl
    · split
      · rfl
      · split
        · rfl
        · split
          · rfl
          · split
            · rfl
            · exact updMap_other _ _ h

theorem chargebackArm_accounts_other {s1 : Accounts} {account : Account}
    {tx : Transaction} {c : ClientId} (h : c ≠ tx.client) :
    (chargebackArm s1 account tx).1.accounts c = s1.accounts c := by
  unfold chargebackArm
  split
  · rfl
  · split
    · rfl
    · split
      · rfl
      · split
        · rfl
        · split
          · rfl
          · split
            · rfl
            · exact updMap_other _ _ h

/-- Accounts of clients other than `tx.client` are never read or written:
`use_tx` leaves their map entries identical. -/
theorem use_tx_accounts_other {s : Accounts} {tx : Transaction} {c : ClientId}
    (h : c ≠ tx.client) :
    (use_tx s tx).1.accounts c = s.accounts c := by
  unfold use_tx
  have hor : (orInsert s tx.client).accounts c = s.accounts c :=
    updMap_other _ _ h
  by_cases hneg : (tx.amount.getD 0) < 0
  · rw [if_pos hneg]
  · rw [if_neg hneg]
    simp only
    split
    · exact hor
    · cases tx.txtype with
      | Deposit => rw [depositArm_accounts_other h]; exact hor
      | Withdrawal => rw [withdrawalArm_accounts_other h]; exact hor
      | Dispute => rw [disputeArm_accounts_other h]; exact hor
      | Resolve => rw [resolveArm_accounts_other h]; exact hor
      | Chargeback => rw [chargebackArm_accounts_other h]; exact hor

theorem depositArm_none_or_frame {s1 : Accounts} {account : Account}
    {tx : Transaction} :
    (depositArm s1 account tx).2 = none ∨
      (depositArm s1 account tx).1.accounts = s1.accounts := by
  unfold depositArm
  simp only
  split
  · right; rfl
  · split
    · right; rfl
    · left; rfl

theorem depositArm_err_accounts {s1 : Accounts} {account : Account}
    {tx : Transaction} (h : (depositArm s1 account tx).2.isSome) :
    (depositArm s1 account tx).1.accounts = s1.accounts := by
  rcases @depositArm_none_or_frame s1 account tx with h0 | h0
  · rw [h0] at h; exact absurd h (by simp)
  · exact h0

theorem withdrawalArm_none_or_frame {s1 : Accounts} {account : Account}
    {tx : Transaction} :
    (withdrawalArm s1 account tx).2 = none ∨
      (withdrawalArm s1 account tx).1.accounts = s1.accounts := by
  unfold withdrawalArm
  simp only
  split
  · right; rfl
  · split
    · right; rfl
    · split
      · right; rfl
      · left; rfl

theorem withdrawalArm_err_accounts {s1 : Accounts} {account : Account}
    {tx : Transaction} (h : (withdrawalArm s1 account tx).2.isSome) :
    (withdrawalArm s1 account tx).1.accounts = s1.accounts := by
  rcases @withdrawalArm_none_or_frame s1 account tx with h0 | h0
  · rw [h0] at h; exact absurd h (by simp)
  · exact h0

theorem disputeArm_none_or_frame {s1 : Accounts} {account : Account}
    {tx : Transaction} :
    (disputeArm s1 account tx).2 = none ∨ (disputeArm s1 account tx).1 = s1 := by
  unfold disputeArm
  split
  · right; rfl
  · split
    · right; rfl
    · split
      · right; rfl
      · split
        · right; rfl
        · split
          · right; rfl
          · split
            · right; rfl
            · left; rfl

theorem disputeArm_err_state {s1 : Accounts} {account : Account}
    {tx : Transaction} (h : (disputeArm s1 account tx).2.isSome) :
    (disputeArm s1 account tx).1 = s1 := by
  rcases @disputeArm_none_or_frame s1 account tx with h0 | h0
  · rw [h0] at h; exact absurd h (by simp)
  · exact h0

theorem resolveArm_none_or_frame {s1 : Accounts} {account : Account}
    {tx : Transaction} :
    (resolveArm s1 account tx).2 = none ∨ (resolveArm s1 account tx).1 = s1 := by
  unfold resolveArm
  split
  · right; rfl
  · split
    · right; rfl
    · split
      · right; rfl
      · split
        · right; rfl
        · split
          · right; rfl
          · split
            · right; rfl
            · left; rfl

theorem resolveArm_err_state {s1 : Accounts} {account : Account}
    {tx : Transaction} (h : (resolveArm s1 account tx).2.isSome) :
    (resolveArm s1 account tx).1 = s1 := by
  rcases @resolveArm_none_or_frame s1 account tx with h0 | h0
  · rw [h0] at h; exact absurd h (by simp)
  · exact h0

theorem chargebackArm_none_or_frame {s1 : Accounts} {account : Account}
    {tx : Transaction} :
    (chargebackArm s1 account tx).2 = none ∨ (chargebackArm s1 account tx).1 = s1 := by
  unfold chargebackArm
  split
  · right; rfl
  · split
    · right; rfl
    · split
      · right; rfl
      · split
        · right; rfl
        · split
          · right; rfl
          · split
            · right; rfl
            · left; rfl

theorem chargebackArm_err_state {s1 : Accounts} {account : Account}
    {tx : Transaction} (h : (chargebackArm s1 account tx).2.isSome) :
    (chargebackArm s1 account tx).1 = s1 := by
  rcases @chargebackArm_none_or_frame s1 account tx with h0 | h0
  · rw [h0] at h; exact absurd h (by simp)
  · exact h0

theorem depositArm_txset {s1 : Accounts} {account : Account} {tx : Transaction} :
    (depositArm s1 account tx).1.txset = updMap s1.txset tx.id tx := by
  unfold depositArm
  simp only
  split
  · rfl
  · split <;> rfl

theorem withdrawalArm_txset {s1 : Accounts} {account : Account} {tx : Transaction} :
    (withdrawalArm s1 account tx).1.txset = updMap s1.txset tx.id tx := by
  unfold withdrawalArm
  simp only
  split
  · rfl
  · split
    · rfl
    · split <;> rfl

theorem disputeArm_txset {s1 : Accounts} {account : Account} {tx : Transaction} :
    (disputeArm s1 account tx).1.txset = s1.txset := by
  unfold disputeArm
  split
  · rfl
  · split
    · rfl
    · split
      · rfl
      · split
        · rfl
        · split
          · rfl
          · split <;> rfl

theorem resolveArm_txset {s1 : Accounts} {account : Account} {tx : Transaction} :
    (resolveArm s1 account tx).1.txset = s1.txset := by
  unfold resolveArm
  split
  · rfl
  · split
    · rfl
    · split
      · rfl
      · split
        · rfl
        · split
          · rfl
          · split <;> rfl

theorem chargebackArm_txset {s1 : Accounts} {account : Account} {tx : Transaction} :
    (chargebackArm s1 account tx).1.txset = s1.txset := by
  unfold chargebackArm
  split
  · rfl
  · split
    · rfl
    · split
      · rfl
      · split
        · rfl
        · split
          · rfl
          · split <;> rfl

/-! ### Locked accounts (claim C3) -/

theorem use_tx_locked_frozen {s : Accounts} {c : ClientId} {a : Account}
    (h : s.accounts c = some a) (hl : a.locked = true) (tx : Transaction) :
    (use_tx s tx).1.accounts c = some a := by
  by_cases hc : c = tx.client
  · subst hc
    have ha : acctOr s tx.client = a := by simp [acctOr, h]
    unfold use_tx
    by_cases hneg : (tx.amount.getD 0) < 0
    · rw [if_pos hneg]; exact h
    · rw [if_neg hneg]
      simp only
      rw [ha, if_pos hl]
      exact orInsert_pres h tx.client
  · rw [use_tx_accounts_other hc]; exact h

theorem applyAll_locked_frozen {s : Accounts} {c : ClientId} {a : Account}
    (h : s.accounts c = some a) (hl : a.locked = true) (txs : List Transaction) :
    (applyAll s txs).accounts c = some a := by
  induction txs generalizing s with
  | nil => exact h
  | cons tx rest ih => exact ih (use_tx_locked_frozen h hl tx)

theorem use_tx_locked_reject {s : Accounts} {c : ClientId} {a : Account}
    {tx : Transaction} (h : s.accounts c = some a) (hl : a.locked = true)
    (hc : tx.client = c) :
    (use_tx s tx).2 =
      some (if (tx.amount.getD 0) < 0 then .NegativeAmount else .AccountLocked) ∧
    (∀ c', (use_tx s tx).1.accounts c' = s.accounts c') ∧
    (∀ i, (use_tx s tx).1.txset i = s.txset i) := by
  subst hc
  have ha : acctOr s tx.client = a := by simp [acctOr, h]
  unfold use_tx
  by_cases hneg : (tx.amount.getD 0) < 0
  · rw [if_pos hneg, if_pos hneg]
    exact ⟨rfl, fun _ => rfl, fun _ => rfl⟩
  · rw [if_neg hneg, if_neg hneg]
    simp only
    rw [ha, if_pos hl]
    exact ⟨rfl, orInsert_keeps s h, fun _ => rfl⟩

/-- The state reached by Deposit(5,1,100); Dispute(5,1); Chargeback(5,1):
client 5's account is charged back and locked. -/
def cbState : Accounts :=
  applyAll Accounts.new
    [⟨.Deposit, 5, 1, some 100⟩, ⟨.Dispute, 5, 1, none⟩, ⟨.Chargeback, 5, 1, none⟩]

/-- C3, counterexample: after a successful Chargeback has locked client
5's account, a Deposit for client 5 carrying a negative amount fails with
`NegativeAmount` — not `AccountLocked` as the claim requires of every
subsequent transaction naming that client (the negative-amount check runs
before the locked check). -/
theorem locked_negative_counterexample :
    cbState.accounts 5 = some ⟨5, 0, 0, true⟩ ∧
    (use_tx cbState ⟨.Deposit, 5, 3, some (-1)⟩).2 = some .NegativeAmount ∧
    (use_tx cbState ⟨.Deposit, 5, 3, some (-1)⟩).2 ≠ some .AccountLocked := by
  decide

/-- C3, amended: once an account's locked flag is true it never becomes
false again in any reachable successor state (in fact the whole account is
frozen), and every subsequent apply of any transaction naming that client
fails — with `NegativeAmount` when the transaction carries a negative
amount (that check runs first), and with `AccountLocked` otherwise — and
changes no account or history entry at all. -/
theorem locked_stays_locked_and_rejects (s : Accounts) (c : ClientId)
    (a : Account) (h : s.accounts c = some a) (hl : a.locked = true) :
    (∀ txs a', (applyAll s txs).accounts c = some a' → a'.locked = true) ∧
    (∀ tx : Transaction, tx.client = c →
      (use_tx s tx).2 =
        some (if (tx.amount.getD 0) < 0 then .NegativeAmount else .AccountLocked) ∧
      (∀ c', (use_tx s tx).1.accounts c' = s.accounts c') ∧
      (∀ i, (use_tx s tx).1.txset i = s.txset i)) := by
  constructor
  · intro txs a' h'
    rw [applyAll_locked_frozen h hl txs] at h'
    cases h'
    exact hl
  · intro tx hc
    exact use_tx_locked_reject h hl hc

/-- Witness for the amended C3 at the concrete charged-back state. -/
theorem locked_stays_locked_and_rejects_witness :
    ((use_tx cbState ⟨.Withdrawal, 5, 2, some 200⟩).2 = some .AccountLocked) ∧
    ((applyAll cbState [⟨.Deposit, 5, 9, some 1⟩]).accounts 5 = some ⟨5, 0, 0, true⟩ →
      (Account.mk 5 0 0 true).locked = true) := by
  have hmain := locked_stays_locked_and_rejects cbState 5 ⟨5, 0, 0, true⟩
    (by decide) rfl
  refine ⟨?_, fun h' => hmain.1 [⟨.Deposit, 5, 9, some 1⟩] ⟨5, 0, 0, true⟩ h'⟩
  have := (hmain.2 ⟨.Withdrawal, 5, 2, some 200⟩ rfl).1
  simpa using this

/-! ### Which errors each arm can raise -/

theorem depositArm_err_ne {s1 : Accounts} {account : Account}
    {tx : Transaction} {e : Error} (h : (depositArm s1 account tx).2 = some e) :
    e ≠ .NegativeAmount ∧ e ≠ .AccountLocked := by
  unfold depositArm at h
  simp only at h
  split at h
  · cases h; exact ⟨nofun, nofun⟩
  · split at h
    · cases h; exact ⟨nofun, nofun⟩
    · exact Option.noConfusion h

theorem withdrawalArm_err_ne {s1 : Accounts} {account : Account}
    {tx : Transaction} {e : Error} (h : (withdrawalArm s1 account tx).2 = some e) :
    e ≠ .NegativeAmount ∧ e ≠ .AccountLocked := by
  unfold withdrawalArm at h
  simp only at h
  split at h
  · cases h; exact ⟨nofun, nofun⟩
  · split at h
    · cases h; exact ⟨nofun, nofun⟩
    · split at h
      · cases h; exact ⟨nofun, nofun⟩
      · exact Option.noConfusion h

theorem disputeArm_err_ne {s1 : Accounts} {account : Account}
    {tx : Transaction} {e : Error} (h : (disputeArm s1 account tx).2 = some e) :
    e ≠ .NegativeAmount ∧ e ≠ .AccountLocked := by
  unfold disputeArm at h
  split at h
  · cases h; exact ⟨nofun, nofun⟩
  · split at h
    · cases h; exact ⟨nofun, nofun⟩
    · split at h
      · cases h; exact ⟨nofun, nofun⟩
      · split at h
        · cases h; exact ⟨nofun, nofun⟩
        · split at h
          · cases h; exact ⟨nofun, nofun⟩
          · split at h
            · cases h; exact ⟨nofun, nofun⟩
            · exact Option.noConfusion h

theorem resolveArm_err_ne {s1 : Accounts} {account : Account}
    {tx : Transaction} {e : Error} (h : (resolveArm s1 account tx).2 = some e) :
    e ≠ .NegativeAmount ∧ e ≠ .AccountLocked := by
  unfold resolveArm at h
  split at h
  · cases h; exact ⟨nofun, nofun⟩
  · split at h
    · cases h; exact ⟨nofun, nofun⟩
    · split at h
      · cases h; exact ⟨nofun, nofun⟩
      · split at h
        · cases h; exact ⟨nofun, nofun⟩
        · split at h
          · cases h; exact ⟨nofun, nofun⟩
          · split at h
            · cases h; exact ⟨nofun, nofun⟩
            · exact Option.noConfusion h

theorem chargebackArm_err_ne {s1 : Accounts} {account : Account}
    {tx : Transaction} {e : Error} (h : (chargebackArm s1 account tx).2 = some e) :
    e ≠ .NegativeAmount ∧ e ≠ .AccountLocked := by
  unfold chargebackArm at h
  split at h
  · cases h; exact ⟨nofun, nofun⟩
  · split at h
    · cases h; exact ⟨nofun, nofun⟩
    · split at h
      · cases h; exact ⟨nofun, nofun⟩
      · split at h
        · cases h; exact ⟨nofun, nofun⟩
        · split at h
          · cases h; exact ⟨nofun, nofun⟩
          · split at h
            · cases h; exact ⟨nofun, nofun⟩
            · exact Option.noConfusion h

/-! ### Dispatch lemmas: reducing `use_tx` to its arm -/

theorem use_tx_deposit_eq {s : Accounts} {tx : Transaction}
    (hneg : ¬(tx.amount.getD 0) < 0)
    (hlk : (acctOr s tx.client).locked = false) (ht : tx.txtype = .Deposit) :
    use_tx s tx = depositArm (orInsert s tx.client) (acctOr s tx.client) tx := by
  unfold use_tx
  rw [if_neg hneg]
  simp only [hlk, ht, Bool.false_eq_true, if_false]

theorem use_tx_withdrawal_eq {s : Accounts} {tx : Transaction}
    (hneg : ¬(tx.amount.getD 0) < 0)
    (hlk : (acctOr s tx.client).locked = false) (ht : tx.txtype = .Withdrawal) :
    use_tx s tx = withdrawalArm (orInsert s tx.client) (acctOr s tx.client) tx := by
  unfold use_tx
  rw [if_neg hneg]
  simp only [hlk, ht, Bool.false_eq_true, if_false]

theorem use_tx_dispute_eq {s : Accounts} {tx : Transaction}
    (hneg : ¬(tx.amount.getD 0) < 0)
    (hlk : (acctOr s tx.client).locked = false) (ht : tx.txtype = .Dispute) :
    use_tx s tx = disputeArm (orInsert s tx.client) (acctOr s tx.client) tx := by
  unfold use_tx
  rw [if_neg hneg]
  simp only [hlk, ht, Bool.false_eq_true, if_false]

theorem use_tx_resolve_eq {s : Accounts} {tx : Transaction}
    (hneg : ¬(tx.amount.getD 0) < 0)
    (hlk : (acctOr s tx.client).locked = false) (ht : tx.txtype = .Resolve) :
    use_tx s tx = resolveArm (orInsert s tx.client) (acctOr s tx.client) tx := by
  unfold use_tx
  rw [if_neg hneg]
  simp only [hlk, ht, Bool.false_eq_true, if_false]

theorem use_tx_chargeback_eq {s : Accounts} {tx : Transaction}
    (hneg : ¬(tx.amount.getD 0) < 0)
    (hlk : (acctOr s tx.client).locked = false) (ht : tx.txtype = .Chargeback) :
    use_tx s tx = chargebackArm (orInsert s tx.client) (acctOr s tx.client) tx := by
  unfold use_tx
  rw [if_neg hneg]
  simp only [hlk, ht, Bool.false_eq_true, if_false]

theorem use_tx_neg_eq {s : Accounts} {tx : Transaction}
    (hneg : (tx.amount.getD 0) < 0) :
    use_tx s tx = (s, some .NegativeAmount) := by
  unfold use_tx
  rw [if_pos hneg]

theorem use_tx_lockedBranch_eq {s : Accounts} {tx : Transaction}
    (hneg : ¬(tx.amount.getD 0) < 0)
    (hlk : (acctOr s tx.client).locked = true) :
    use_tx s tx = (orInsert s tx.client, some .AccountLocked) := by
  unfold use_tx
  rw [if_neg hneg]
  simp only [hlk, if_true]

/-! ### Claim C1: what a failing call really leaves behind -/

/-- C1, counterexample: Deposit(client 5, id 1, 100) succeeds, then
Withdrawal(client 5, id 2, 200) fails with InsufficientFunds — but the
history map, which had no entry at id 2 before the failing call, now
stores the failed withdrawal there: the `txset.insert` in the Withdrawal
branch runs before the funds check, so the failing call does not leave
the transaction-history map exactly as it was. -/
theorem error_frame_counterexample :
    ((use_tx Accounts.new ⟨.Deposit, 5, 1, some 100⟩).1.txset 2 = none) ∧
    ((use_tx (use_tx Accounts.new ⟨.Deposit, 5, 1, some 100⟩).1
        ⟨.Withdrawal, 5, 2, some 200⟩).2 = some (.InsufficientFunds 200 100)) ∧
    ((use_tx (use_tx Accounts.new ⟨.Deposit, 5, 1, some 100⟩).1
        ⟨.Withdrawal, 5, 2, some 200⟩).1.txset 2 =
      some ⟨.Withdrawal, 5, 2, some 200⟩) := by
  decide

/-- C1, amended: when `use_tx` returns an error, every account that
existed before keeps exactly its prior state, no account of another
client is touched, and the history mapping is unchanged at every id other
than `tx.id`; it is fully unchanged for Dispute/Resolve/Chargeback
failures and for `NegativeAmount`/`AccountLocked` failures, but a Deposit
or Withdrawal that fails past those two shared checks (with
`DuplicateTransaction`, `MissingAmount` or `InsufficientFunds`) has
already stored (or overwritten) its own record at `tx.id` in the history
mapping. -/
theorem use_tx_error_frame (s : Accounts) (tx : Transaction) (e : Error)
    (he : (use_tx s tx).2 = some e) :
    (∀ c a, s.accounts c = some a → (use_tx s tx).1.accounts c = some a) ∧
    (∀ c, c ≠ tx.client → (use_tx s tx).1.accounts c = s.accounts c) ∧
    (∀ i, i ≠ tx.id → (use_tx s tx).1.txset i = s.txset i) ∧
    ((tx.txtype = .Dispute ∨ tx.txtype = .Resolve ∨ tx.txtype = .Chargeback ∨
        e = .NegativeAmount ∨ e = .AccountLocked) →
      ∀ i, (use_tx s tx).1.txset i = s.txset i) ∧
    ((tx.txtype = .Deposit ∨ tx.txtype = .Withdrawal) →
      e ≠ .NegativeAmount → e ≠ .AccountLocked →
      (use_tx s tx).1.txset tx.id = some tx) := by
  by_cases hneg : (tx.amount.getD 0) < 0
  · rw [use_tx_neg_eq hneg] at he ⊢
    obtain rfl : Error.NegativeAmount = e := by simpa using he
    exact ⟨fun c a h => h, fun c _ => rfl, fun i _ => rfl, fun _ i => rfl,
           fun _ hne _ => absurd rfl hne⟩
  · by_cases hlk : (acctOr s tx.client).locked
    · rw [use_tx_lockedBranch_eq hneg hlk] at he ⊢
      obtain rfl : Error.AccountLocked = e := by simpa using he
      exact ⟨fun c a h => orInsert_pres h tx.client,
             fun c hc => updMap_other _ _ hc,
             fun i _ => rfl, fun _ i => rfl,
             fun _ _ hnl => absurd rfl hnl⟩
    · rw [Bool.not_eq_true] at hlk
      cases htt : tx.txtype with
      | Deposit =>
        rw [use_tx_deposit_eq hneg hlk htt] at he ⊢
        obtain ⟨hne, hnl⟩ := depositArm_err_ne he
        refine ⟨fun c a h => ?_, fun c hc => ?_, fun i hi => ?_,
                fun hdisj i => ?_, fun _ _ _ => ?_⟩
        · rw [depositArm_err_accounts (by simp [he])]
          exact orInsert_pres h tx.client
        · rw [depositArm_accounts_other hc]
          exact updMap_other _ _ hc
        · rw [depositArm_txset]
          exact updMap_other _ _ hi
        · rcases hdisj with h1 | h1 | h1 | h1 | h1
          · cases h1
          · cases h1
          · cases h1
          · exact absurd h1 hne
          · exact absurd h1 hnl
        · rw [depositArm_txset]
          exact updMap_self _ _ _
      | Withdrawal =>
        rw [use_tx_withdrawal_eq hneg hlk htt] at he ⊢
        obtain ⟨hne, hnl⟩ := withdrawalArm_err_ne he
        refine ⟨fun c a h => ?_, fun c hc => ?_, fun i hi => ?_,
                fun hdisj i => ?_, fun _ _ _ => ?_⟩
        · rw [withdrawalArm_err_accounts (by simp [he])]
          exact orInsert_pres h tx.client
        · rw [withdrawalArm_accounts_other hc]
          exact updMap_other _ _ hc
        · rw [withdrawalArm_txset]
          exact updMap_other _ _ hi
        · rcases hdisj with h1 | h1 | h1 | h1 | h1
          · cases h1
          · cases h1
          · cases h1
          · exact absurd h1 hne
          · exact absurd h1 hnl
        · rw [withdrawalArm_txset]
          exact updMap_self _ _ _
      | Dispute =>
        rw [use_tx_dispute_eq hneg hlk htt] at he ⊢
        rw [disputeArm_err_state (by simp [he])]
        refine ⟨fun c a h => orInsert_pres h tx.client,
                fun c hc => updMap_other _ _ hc,
                fun i _ => rfl, fun _ i => rfl, fun hdw _ _ => ?_⟩
        rcases hdw with h1 | h1
        · cases h1
        · cases h1
      | Resolve =>
        rw [use_tx_resolve_eq hneg hlk htt] at he ⊢
        rw [resolveArm_err_state (by simp [he])]
        refine ⟨fun c a h => orInsert_pres h tx.client,
                fun c hc => updMap_other _ _ hc,
                fun i _ => rfl, fun _ i => rfl, fun hdw _ _ => ?_⟩
        rcases hdw with h1 | h1
        · cases h1
        · cases h1
      | Chargeback =>
        rw [use_tx_chargeback_eq hneg hlk htt] at he ⊢
        rw [chargebackArm_err_state (by simp [he])]
        refine ⟨fun c a h => orInsert_pres h tx.client,
                fun c hc => updMap_other _ _ hc,
                fun i _ => rfl, fun _ i => rfl, fun hdw _ _ => ?_⟩
        rcases hdw with h1 | h1
        · cases h1
        · cases h1

/-- Witness for the amended C1 at the failing 200-withdrawal. -/
theorem use_tx_error_frame_witness :
    ((use_tx (use_tx Accounts.new ⟨.Deposit, 5, 1, some 100⟩).1
        ⟨.Withdrawal, 5, 2, some 200⟩).1.accounts 5 = some ⟨5, 100, 0, false⟩) ∧
    ((use_tx (use_tx Accounts.new ⟨.Deposit, 5, 1, some 100⟩).1
        ⟨.Withdrawal, 5, 2, some 200⟩).1.txset 2 =
      some ⟨.Withdrawal, 5, 2, some 200⟩) := by
  have h := use_tx_error_frame (use_tx Accounts.new ⟨.Deposit, 5, 1, some 100⟩).1
    ⟨.Withdrawal, 5, 2, some 200⟩ (.InsufficientFunds 200 100) (by decide)
  exact ⟨h.1 5 ⟨5, 100, 0, false⟩ (by decide),
         h.2.2.2.2 (Or.inr rfl) nofun nofun⟩

/-! ### Claim C8: duplicate ids never move balances -/

/-- C8: a Deposit or Withdrawal whose transaction id is already present
in the history mapping leaves every stored account exactly as it was —
in particular every available and held balance — regardless of the
amount the duplicate carries. -/
theorem duplicate_id_preserves_balances (s : Accounts) (tx : Transaction)
    (ht : tx.txtype = .Deposit ∨ tx.txtype = .Withdrawal)
    (hdup : (s.txset tx.id).isSome) :
    ∀ c a, s.accounts c = some a → (use_tx s tx).1.accounts c = some a := by
  intro c a h
  by_cases hneg : (tx.amount.getD 0) < 0
  · rw [use_tx_neg_eq hneg]; exact h
  · by_cases hlk : (acctOr s tx.client).locked
    · rw [use_tx_lockedBranch_eq hneg hlk]
      exact orInsert_pres h tx.client
    · rw [Bool.not_eq_true] at hlk
      rcases ht with htd | htw
      · rw [use_tx_deposit_eq hneg hlk htd]
        have herr : (depositArm (orInsert s tx.client) (acctOr s tx.client)
            tx).2.isSome := by
          unfold depositArm
          simp only
          rw [orInsert_txset, if_pos hdup]
          rfl
        rw [depositArm_err_accounts herr]
        exact orInsert_pres h tx.client
      · rw [use_tx_withdrawal_eq hneg hlk htw]
        have herr : (withdrawalArm (orInsert s tx.client) (acctOr s tx.client)
            tx).2.isSome := by
          unfold withdrawalArm
          simp only
          rw [orInsert_txset, if_pos hdup]
          rfl
        rw [withdrawalArm_err_accounts herr]
        exact orInsert_pres h tx.client

/-- Witness for C8: the repository's own duplicate-id test input
(Deposit id 1, then Withdrawal reusing id 1 with a different amount). -/
theorem duplicate_id_preserves_balances_witness :
    (use_tx (use_tx Accounts.new ⟨.Deposit, 5, 1, some 100⟩).1
      ⟨.Withdrawal, 5, 1, some 200⟩).1.accounts 5 = some ⟨5, 100, 0, false⟩ :=
  duplicate_id_preserves_balances _ _ (Or.inr rfl) (by decide) 5
    ⟨5, 100, 0, false⟩ (by decide)

/-! ### Claim C9: which accounts a call can create -/

/-- C9: `use_tx` never modifies or creates any account other than the one
keyed by `tx.client`; when it fails with `NegativeAmount` the account map
is fully untouched (no account is created); and when it fails with any
other error while `tx.client` had no account, the call has still created
(and retains) a fresh account for that client with zero balances and
`locked = false`. -/
theorem use_tx_account_creation (s : Accounts) (tx : Transaction) :
    (∀ c, c ≠ tx.client → (use_tx s tx).1.accounts c = s.accounts c) ∧
    ((use_tx s tx).2 = some .NegativeAmount →
      ∀ c, (use_tx s tx).1.accounts c = s.accounts c) ∧
    (∀ e, (use_tx s tx).2 = some e → e ≠ .NegativeAmount →
      s.accounts tx.client = none →
      (use_tx s tx).1.accounts tx.client = some (Account.fresh tx.client)) := by
  refine ⟨fun c hc => use_tx_accounts_other hc, ?_, ?_⟩
  · intro hng c
    by_cases hneg : (tx.amount.getD 0) < 0
    · rw [use_tx_neg_eq hneg]
    · exfalso
      by_cases hlk : (acctOr s tx.client).locked
      · rw [use_tx_lockedBranch_eq hneg hlk] at hng
        simp at hng
      · rw [Bool.not_eq_true] at hlk
        cases htt : tx.txtype with
        | Deposit =>
          rw [use_tx_deposit_eq hneg hlk htt] at hng
          exact (depositArm_err_ne hng).1 rfl
        | Withdrawal =>
          rw [use_tx_withdrawal_eq hneg hlk htt] at hng
          exact (withdrawalArm_err_ne hng).1 rfl
        | Dispute =>
          rw [use_tx_dispute_eq hneg hlk htt] at hng
          exact (disputeArm_err_ne hng).1 rfl
        | Resolve =>
          rw [use_tx_resolve_eq hneg hlk htt] at hng
          exact (resolveArm_err_ne hng).1 rfl
        | Chargeback =>
          rw [use_tx_chargeback_eq hneg hlk htt] at hng
          exact (chargebackArm_err_ne hng).1 rfl
  · intro e he hne hnone
    have hfresh : acctOr s tx.client = Account.fresh tx.client := by
      simp [acctOr, hnone]
    by_cases hneg : (tx.amount.getD 0) < 0
    · rw [use_tx_neg_eq hneg] at he
      obtain rfl : Error.NegativeAmount = e := by simpa using he
      exact absurd rfl hne
    · by_cases hlk : (acctOr s tx.client).locked
      · rw [hfresh] at hlk
        exact Bool.noConfusion hlk
      · rw [Bool.not_eq_true] at hlk
        cases htt : tx.txtype with
        | Deposit =>
          rw [use_tx_deposit_eq hneg hlk htt] at he ⊢
          rw [depositArm_err_accounts (by simp [he]), ← hfresh]
          exact orInsert_self s tx.client
        | Withdrawal =>
          rw [use_tx_withdrawal_eq hneg hlk htt] at he ⊢
          rw [withdrawalArm_err_accounts (by simp [he]), ← hfresh]
          exact orInsert_self s tx.client
        | Dispute =>
          rw [use_tx_dispute_eq hneg hlk htt] at he ⊢
          rw [disputeArm_err_state (by simp [he]), ← hfresh]
          exact orInsert_self s tx.client
        | Resolve =>
          rw [use_tx_resolve_eq hneg hlk htt] at he ⊢
          rw [resolveArm_err_state (by simp [he]), ← hfresh]
          exact orInsert_self s tx.client
        | Chargeback =>
          rw [use_tx_chargeback_eq hneg hlk htt] at he ⊢
          rw [chargebackArm_err_state (by simp [he]), ← hfresh]
          exact orInsert_self s tx.client

/-- Witness for C9: a negative deposit creates nothing; a withdrawal by a
brand-new client fails yet creates the fresh zero account; other clients
are untouched. -/
theorem use_tx_account_creation_witness :
    ((use_tx Accounts.new ⟨.Deposit, 5, 1, some (-1)⟩).1.accounts 5 =
      Accounts.new.accounts 5) ∧
    ((use_tx Accounts.new ⟨.Withdrawal, 7, 1, some 10⟩).1.accounts 7 =
      some (Account.fresh 7)) ∧
    ((use_tx Accounts.new ⟨.Deposit, 5, 1, some 100⟩).1.accounts 9 =
      Accounts.new.accounts 9) :=
  ⟨(use_tx_account_creation Accounts.new ⟨.Deposit, 5, 1, some (-1)⟩).2.1
      (by decide) 5,
   (use_tx_account_creation Accounts.new ⟨.Withdrawal, 7, 1, some 10⟩).2.2
      (.InsufficientFunds 10 0) (by decide) nofun rfl,
   (use_tx_account_creation Accounts.new ⟨.Deposit, 5, 1, some 100⟩).1 9
      (by decide)⟩

/-! ### Claim C4: the Deposit branch -/

/-- C4, counterexample: with id 1 already in the history mapping, a
Deposit whose amount is absent fails with `DuplicateTransaction(1)`, not
with `MissingAmount` as the claim's check order requires: the code tests
the duplicate id before the missing amount. -/
theorem deposit_order_counterexample :
    ((use_tx (use_tx Accounts.new ⟨.Deposit, 5, 1, some 100⟩).1
        ⟨.Deposit, 5, 1, none⟩).2 = some (.DuplicateTransaction 1)) ∧
    ((use_tx (use_tx Accounts.new ⟨.Deposit, 5, 1, some 100⟩).1
        ⟨.Deposit, 5, 1, none⟩).2 ≠ some .MissingAmount) := by
  decide

/-- C4, amended: for a Deposit on an unlocked account whose amount is
non-negative or absent, the duplicate-id check runs first: if the id is
already in history the call fails with `DuplicateTransaction(id)` (the
history entry is nevertheless overwritten with the new record) and the
account is unchanged; otherwise, if the amount is absent, the call fails
with `MissingAmount` — the record still being stored in history — and the
account is unchanged; otherwise the call succeeds, records the
transaction in history, and increases available by exactly the amount,
leaving held and locked untouched. -/
theorem deposit_spec (s : Accounts) (tx : Transaction)
    (ht : tx.txtype = .Deposit)
    (hnn : ∀ x, tx.amount = some x → 0 ≤ x)
    (hlk : (acctOr s tx.client).locked = false) :
    ((s.txset tx.id).isSome →
      (use_tx s tx).2 = some (.DuplicateTransaction tx.id) ∧
      (use_tx s tx).1.accounts tx.client = some (acctOr s tx.client) ∧
      (use_tx s tx).1.txset tx.id = some tx) ∧
    (s.txset tx.id = none → tx.amount = none →
      (use_tx s tx).2 = some .MissingAmount ∧
      (use_tx s tx).1.accounts tx.client = some (acctOr s tx.client) ∧
      (use_tx s tx).1.txset tx.id = some tx) ∧
    (∀ x, s.txset tx.id = none → tx.amount = some x →
      (use_tx s tx).2 = none ∧
      (use_tx s tx).1.txset tx.id = some tx ∧
      (use_tx s tx).1.accounts tx.client =
        some { acctOr s tx.client with
               available := (acctOr s tx.client).available + x }) := by
  have hneg : ¬(tx.amount.getD 0) < 0 := by
    cases hx : tx.amount with
    | none => simp
    | some x => simpa using not_lt.mpr (hnn x hx)
  rw [use_tx_deposit_eq hneg hlk ht]
  unfold depositArm
  simp only [orInsert_txset]
  refine ⟨?_, ?_, ?_⟩
  · intro hdup
    rw [if_pos hdup]
    exact ⟨rfl, orInsert_self s tx.client, updMap_self _ _ _⟩
  · intro hnd hnone
    simp only [hnd, hnone, Option.isSome_none, Bool.false_eq_true, if_false]
    exact ⟨trivial, orInsert_self s tx.client, updMap_self _ _ _⟩
  · intro x hnd hx
    simp only [hnd, hx, Option.isSome_none, Bool.false_eq_true, if_false]
    exact ⟨trivial, updMap_self _ _ _, updMap_self _ _ _⟩

/-- Witness for the amended C4: duplicate id 1 beats the missing amount;
a fresh deposit succeeds and credits available. -/
theorem deposit_spec_witness :
    ((use_tx (use_tx Accounts.new ⟨.Deposit, 5, 1, some 100⟩).1
        ⟨.Deposit, 5, 1, none⟩).2 = some (.DuplicateTransaction 1)) ∧
    ((use_tx Accounts.new ⟨.Deposit, 5, 1, some 100⟩).2 = none) :=
  ⟨((deposit_spec _ ⟨.Deposit, 5, 1, none⟩ rfl (fun x hx => nomatch hx)
      (by decide)).1 (by decide)).1,
   ((deposit_spec Accounts.new ⟨.Deposit, 5, 1, some 100⟩ rfl
      (fun x hx => by cases hx; norm_num) rfl).2.2 100 rfl rfl).1⟩

/-! ### Claim C5: the Dispute branch's check order -/

/-- C5, counterexample: a Deposit(5, id 1, no amount) fails with
`MissingAmount` yet still stores its record in history; a Dispute of id 1
by client 5 then passes the amount, lookup, type and client checks and
fails with `MissingAmount` — an outcome absent from the claim's
exhaustive list (it is neither `InsufficientFunds` nor success). -/
theorem dispute_order_counterexample :
    ((use_tx Accounts.new ⟨.Deposit, 5, 1, none⟩).2 = some .MissingAmount) ∧
    ((use_tx Accounts.new ⟨.Deposit, 5, 1, none⟩).1.txset 1 =
      some ⟨.Deposit, 5, 1, none⟩) ∧
    ((use_tx (use_tx Accounts.new ⟨.Deposit, 5, 1, none⟩).1
        ⟨.Dispute, 5, 1, none⟩).2 = some .MissingAmount) ∧
    ((use_tx (use_tx Accounts.new ⟨.Deposit, 5, 1, none⟩).1
        ⟨.Dispute, 5, 1, none⟩).2 ≠ none) := by
  decide

/-- C5, amended: for a Dispute on an unlocked account whose amount, if
present, is non-negative (a negative amount fails earlier with
`NegativeAmount`), and whose account record carries its own client id,
the checks run in exactly this order: `UnattendedforAmount` when an
amount is present; else `TransactionNotFound(id)` when the id is not in
history; else `WrongDispute` when the stored record is not a Deposit;
else `DisputeMismatch` when the stored record's client differs; else
`MissingAmount` when the stored record has no amount (possible, because a
failed Deposit still stores its record); else `InsufficientFunds` when
available is below the stored amount; otherwise success, moving exactly
that amount from available to held. -/
theorem dispute_spec (s : Accounts) (tx : Transaction)
    (ht : tx.txtype = .Dispute)
    (hnn : ∀ x, tx.amount = some x → 0 ≤ x)
    (hlk : (acctOr s tx.client).locked = false)
    (hcl : (acctOr s tx.client).client = tx.client) :
    (tx.amount.isSome →
      (use_tx s tx).2 = some .UnattendedforAmount) ∧
    (tx.amount = none → s.txset tx.id = none →
      (use_tx s tx).2 = some (.TransactionNotFound tx.id)) ∧
    (∀ t, tx.amount = none → s.txset tx.id = some t → t.txtype ≠ .Deposit →
      (use_tx s tx).2 = some .WrongDispute) ∧
    (∀ t, tx.amount = none → s.txset tx.id = some t → t.txtype = .Deposit →
      t.client ≠ tx.client → (use_tx s tx).2 = some .DisputeMismatch) ∧
    (∀ t, tx.amount = none → s.txset tx.id = some t → t.txtype = .Deposit →
      t.client = tx.client → t.amount = none →
      (use_tx s tx).2 = some .MissingAmount) ∧
    (∀ t x, tx.amount = none → s.txset tx.id = some t → t.txtype = .Deposit →
      t.client = tx.client → t.amount = some x →
      (acctOr s tx.client).available < x →
      (use_tx s tx).2 =
        some (.InsufficientFunds x (acctOr s tx.client).available)) ∧
    (∀ t x, tx.amount = none → s.txset tx.id = some t → t.txtype = .Deposit →
      t.client = tx.client → t.amount = some x →
      ¬(acctOr s tx.client).available < x →
      (use_tx s tx).2 = none ∧
      (use_tx s tx).1.accounts tx.client =
        some { acctOr s tx.client with
               available := (acctOr s tx.client).available - x,
               held := (acctOr s tx.client).held + x } ∧
      (∀ i, (use_tx s tx).1.txset i = s.txset i)) := by
  have hneg : ¬(tx.amount.getD 0) < 0 := by
    cases hx : tx.amount with
    | none => simp
    | some x => simpa using not_lt.mpr (hnn x hx)
  rw [use_tx_dispute_eq hneg hlk ht]
  unfold disputeArm
  simp only [orInsert_txset]
  refine ⟨?_, ?_, ?_, ?_, ?_, ?_, ?_⟩
  · intro hsome
    rw [if_pos hsome]
  · intro hnone hnf
    simp only [hnone, hnf, Option.isSome_none, Bool.false_eq_true, if_false]
  · intro t hnone hlook hwd
    simp only [hnone, hlook, Option.isSome_none, Bool.false_eq_true, if_false]
    rw [if_pos hwd]
  · intro t hnone hlook htd hmm
    simp only [hnone, hlook, Option.isSome_none, Bool.false_eq_true, if_false,
      if_neg (not_not_intro htd), hcl]
    rw [if_pos hmm]
  · intro t hnone hlook htd hsame hta
    simp only [hnone, hlook, hta, Option.isSome_none, Bool.false_eq_true,
      if_false, if_neg (not_not_intro htd), hcl,
      if_neg (not_not_intro hsame)]
  · intro t x hnone hlook htd hsame hta hlt
    simp only [hnone, hlook, hta, Option.isSome_none, Bool.false_eq_true,
      if_false, if_neg (not_not_intro htd), hcl,
      if_neg (not_not_intro hsame)]
    rw [if_pos hlt]
  · intro t x hnone hlook htd hsame hta hge
    simp only [hnone, hlook, hta, Option.isSome_none, Bool.false_eq_true,
      if_false, if_neg (not_not_intro htd), hcl,
      if_neg (not_not_intro hsame), if_neg hge]
    exact ⟨trivial, updMap_self _ _ _, fun _ => trivial⟩

/-- Witness for the amended C5 at the repository's own dispute test
(Deposit(5,1,100) then Dispute(5,1)): the dispute succeeds and moves 100
from available to held. -/
theorem dispute_spec_witness :
    ((use_tx (use_tx Accounts.new ⟨.Deposit, 5, 1, some 100⟩).1
        ⟨.Dispute, 5, 1, none⟩).2 = none) ∧
    ((use_tx (use_tx Accounts.new ⟨.Deposit, 5, 1, some 100⟩).1
        ⟨.Dispute, 5, 1, none⟩).1.accounts 5 =
      some { acctOr (use_tx Accounts.new ⟨.Deposit, 5, 1, some 100⟩).1 5 with
             available :=
               (acctOr (use_tx Accounts.new ⟨.Deposit, 5, 1, some 100⟩).1
                   5).available - 100,
             held :=
               (acctOr (use_tx Accounts.new ⟨.Deposit, 5, 1, some 100⟩).1
                   5).held + 100 }) := by
  have h := (dispute_spec (use_tx Accounts.new ⟨.Deposit, 5, 1, some 100⟩).1
    ⟨.Dispute, 5, 1, none⟩ rfl (fun x hx => nomatch hx) (by decide)
    (by decide)).2.2.2.2.2.2 ⟨.Deposit, 5, 1, some 100⟩ 100 rfl (by decide)
    rfl rfl rfl (by decide)
  exact ⟨h.1, h.2.1⟩

/-! ### Claim C6: the Chargeback branch -/

/-- C6: for a Chargeback on an unlocked account that passes the
Dispute-style preconditions (no amount carried, referenced id found in
history, stored record is a Deposit whose client matches, with a stored
amount): if held is below the referenced amount the call fails with
`InsufficientFunds{asked := amount, available := held}`; otherwise it
subtracts exactly that amount from held, sets the locked flag, and leaves
the available balance unchanged — nothing is returned to available. -/
theorem chargeback_spec (s : Accounts) (tx : Transaction)
    (ht : tx.txtype = .Chargeback)
    (hnone : tx.amount = none)
    (hlk : (acctOr s tx.client).locked = false)
    (t : Transaction) (hlook : s.txset tx.id = some t)
    (htd : t.txtype = .Deposit)
    (hsame : t.client = (acctOr s tx.client).client)
    (x : Amount) (hta : t.amount = some x) :
    ((acctOr s tx.client).held < x →
      (use_tx s tx).2 =
        some (.InsufficientFunds x (acctOr s tx.client).held)) ∧
    (¬(acctOr s tx.client).held < x →
      (use_tx s tx).2 = none ∧
      (use_tx s tx).1.accounts tx.client =
        some { acctOr s tx.client with
               held := (acctOr s tx.client).held - x, locked := true } ∧
      (∀ i, (use_tx s tx).1.txset i = s.txset i)) := by
  have hneg : ¬(tx.amount.getD 0) < 0 := by simp [hnone]
  rw [use_tx_chargeback_eq hneg hlk ht]
  unfold chargebackArm
  simp only [orInsert_txset]
  constructor
  · intro hlt
    simp only [hnone, hlook, hta, Option.isSome_none, Bool.false_eq_true,
      if_false, if_neg (not_not_intro htd), if_neg (not_not_intro hsame)]
    rw [if_pos hlt]
  · intro hge
    simp only [hnone, hlook, hta, Option.isSome_none, Bool.false_eq_true,
      if_false, if_neg (not_not_intro htd), if_neg (not_not_intro hsame),
      if_neg hge]
    exact ⟨trivial, updMap_self _ _ _, fun _ => trivial⟩

/-- Witness for C6 at the repository's own chargeback test
(Deposit(5,1,100); Dispute(5,1); then Chargeback(5,1)). -/
theorem chargeback_spec_witness :
    ((use_tx (applyAll Accounts.new
        [⟨.Deposit, 5, 1, some 100⟩, ⟨.Dispute, 5, 1, none⟩])
        ⟨.Chargeback, 5, 1, none⟩).2 = none) ∧
    ((use_tx (applyAll Accounts.new
        [⟨.Deposit, 5, 1, some 100⟩, ⟨.Dispute, 5, 1, none⟩])
        ⟨.Chargeback, 5, 1, none⟩).1.accounts 5 =
      some { acctOr (applyAll Accounts.new
               [⟨.Deposit, 5, 1, some 100⟩, ⟨.Dispute, 5, 1, none⟩]) 5 with
             held := (acctOr (applyAll Accounts.new
               [⟨.Deposit, 5, 1, some 100⟩, ⟨.Dispute, 5, 1, none⟩]) 5).held
               - 100,
             locked := true }) := by
  have h := (chargeback_spec (applyAll Accounts.new
      [⟨.Deposit, 5, 1, some 100⟩, ⟨.Dispute, 5, 1, none⟩])
      ⟨.Chargeback, 5, 1, none⟩ rfl rfl (by decide)
      ⟨.Deposit, 5, 1, some 100⟩ (by decide) rfl (by decide) 100 rfl).2
      (by decide)
  exact ⟨h.1, h.2.1⟩

/-! ### Success characterizations of Dispute and Resolve (for claim C7) -/

theorem disputeArm_ok {s1 : Accounts} {account : Account} {tx : Transaction}
    (h : (disputeArm s1 account tx).2 = none) :
    ∃ t x, tx.amount = none ∧ s1.txset tx.id = some t ∧
      t.txtype = .Deposit ∧ t.client = account.client ∧ t.amount = some x ∧
      ¬account.available < x ∧
      (disputeArm s1 account tx).1 =
        (⟨updMap s1.accounts tx.client
            { account with available := account.available - x,
                           held := account.held + x },
          s1.txset⟩ : Accounts) := by
  unfold disputeArm at h
  split at h
  · exact absurd h (by simp)
  · next hns =>
    split at h
    · exact absurd h (by simp)
    · next t heq =>
      split at h
      · exact absurd h (by simp)
      · next hnd =>
        split at h
        · exact absurd h (by simp)
        · next hnc =>
          split at h
          · exact absurd h (by simp)
          · next x hta =>
            split at h
            · exact absurd h (by simp)
            · next hge =>
              have hnone : tx.amount = none := by simpa using hns
              refine ⟨t, x, hnone, heq, not_not.mp hnd, not_not.mp hnc,
                hta, hge, ?_⟩
              unfold disputeArm
              simp only [hnone, heq, hta, Option.isSome_none,
                Bool.false_eq_true, if_false, if_neg hnd, if_neg hnc,
                if_neg hge]

theorem resolveArm_ok {s1 : Accounts} {account : Account} {tx : Transaction}
    (h : (resolveArm s1 account tx).2 = none) :
    ∃ t x, tx.amount = none ∧ s1.txset tx.id = some t ∧
      t.txtype = .Deposit ∧ t.client = account.client ∧ t.amount = some x ∧
      ¬account.held < x ∧
      (resolveArm s1 account tx).1 =
        (⟨updMap s1.accounts tx.client
            { account with available := account.available + x,
                           held := account.held - x },
          s1.txset⟩ : Accounts) := by
  unfold resolveArm at h
  split at h
  · exact absurd h (by simp)
  · next hns =>
    split at h
    · exact absurd h (by simp)
    · next t heq =>
      split at h
      · exact absurd h (by simp)
      · next hnd =>
        split at h
        · exact absurd h (by simp)
        · next hnc =>
          split at h
          · exact absurd h (by simp)
          · next x hta =>
            split at h
            · exact absurd h (by simp)
            · next hge =>
              have hnone : tx.amount = none := by simpa using hns
              refine ⟨t, x, hnone, heq, not_not.mp hnd, not_not.mp hnc,
                hta, hge, ?_⟩
              unfold resolveArm
              simp only [hnone, heq, hta, Option.isSome_none,
                Bool.false_eq_true, if_false, if_neg hnd, if_neg hnc,
                if_neg hge]

/-! ### Claim C7: Dispute followed by Resolve restores the split -/

/-- C7: from any reachable ledger state, if a Dispute succeeds and is
immediately followed by a successful Resolve of the same transaction id,
the referenced account's available and held balances return exactly to
their pre-dispute values — exact arithmetic, no drift, for any valid
amount. -/
theorem dispute_resolve_roundtrip (s : Accounts) (hs : Reachable s)
    (d r : Transaction) (hd : d.txtype = .Dispute) (hr : r.txtype = .Resolve)
    (hid : r.id = d.id)
    (h1 : (use_tx s d).2 = none)
    (h2 : (use_tx (use_tx s d).1 r).2 = none) :
    (acctOr (use_tx (use_tx s d).1 r).1 d.client).available =
      (acctOr s d.client).available ∧
    (acctOr (use_tx (use_tx s d).1 r).1 d.client).held =
      (acctOr s d.client).held := by
  have hci : ClientInv s.accounts := reachable_client_inv hs
  have hAc : (acctOr s d.client).client = d.client := acctOr_client hci d.client
  have hneg1 : ¬(d.amount.getD 0) < 0 := by
    intro hneg
    rw [use_tx_neg_eq hneg] at h1
    exact Option.noConfusion h1
  have hlk1 : (acctOr s d.client).locked = false := by
    rcases Bool.eq_false_or_eq_true (acctOr s d.client).locked with htr | hf
    · exfalso
      rw [use_tx_lockedBranch_eq hneg1 htr] at h1
      exact Option.noConfusion h1
    · exact hf
  rw [use_tx_dispute_eq hneg1 hlk1 hd] at h1 h2 ⊢
  obtain ⟨t, x, hdnone, hlook, htd, htc, hta, hge, hstate1⟩ := disputeArm_ok h1
  rw [hstate1] at h2 ⊢
  have htc' : t.client = d.client := htc.trans hAc
  have hci1 : ClientInv (Accounts.mk
      (updMap (orInsert s d.client).accounts d.client
        { acctOr s d.client with
          available := (acctOr s d.client).available - x,
          held := (acctOr s d.client).held + x })
      (orInsert s d.client).txset).accounts :=
    ClientInv_upd (ClientInv_upd hci hAc) hAc
  have hneg2 : ¬(r.amount.getD 0) < 0 := by
    intro hneg
    rw [use_tx_neg_eq hneg] at h2
    exact Option.noConfusion h2
  have hlk2 : (acctOr (Accounts.mk
      (updMap (orInsert s d.client).accounts d.client
        { acctOr s d.client with
          available := (acctOr s d.client).available - x,
          held := (acctOr s d.client).held + x })
      (orInsert s d.client).txset) r.client).locked = false := by
    rcases Bool.eq_false_or_eq_true (acctOr (Accounts.mk
        (updMap (orInsert s d.client).accounts d.client
          { acctOr s d.client with
            available := (acctOr s d.client).available - x,
            held := (acctOr s d.client).held + x })
        (orInsert s d.client).txset) r.client).locked with htr | hf
    · exfalso
      rw [use_tx_lockedBranch_eq hneg2 htr] at h2
      exact Option.noConfusion h2
    · exact hf
  rw [use_tx_resolve_eq hneg2 hlk2 hr] at h2 ⊢
  obtain ⟨t2, x2, hrnone, hlook2, htd2, htc2, hta2, hge2, hstate2⟩ :=
    resolveArm_ok h2
  rw [hstate2]
  have hlook' : s.txset d.id = some t := hlook
  have hlook2' : s.txset d.id = some t2 := by
    have : s.txset r.id = some t2 := hlook2
    rwa [hid] at this
  obtain rfl : t2 = t := by
    rw [hlook'] at hlook2'
    exact (Option.some.inj hlook2').symm
  obtain rfl : x2 = x := by
    rw [hta] at hta2
    exact (Option.some.inj hta2).symm
  have hA1c := acctOr_client hci1 r.client
  have hrc : r.client = d.client := by
    have hh := htc2
    rw [htc'] at hh
    rw [hA1c] at hh
    exact hh.symm
  rw [hrc] at *
  constructor <;> simp [acctOr, updMap, orInsert, Account.fresh]

/-- Witness for C7 at Deposit(5,1,100); Dispute(5,1); Resolve(5,1). -/
theorem dispute_resolve_roundtrip_witness :
    ((acctOr (use_tx (use_tx (use_tx Accounts.new ⟨.Deposit, 5, 1, some 100⟩).1
        ⟨.Dispute, 5, 1, none⟩).1 ⟨.Resolve, 5, 1, none⟩).1 5).available =
      (acctOr (use_tx Accounts.new ⟨.Deposit, 5, 1, some 100⟩).1 5).available) ∧
    ((acctOr (use_tx (use_tx (use_tx Accounts.new ⟨.Deposit, 5, 1, some 100⟩).1
        ⟨.Dispute, 5, 1, none⟩).1 ⟨.Resolve, 5, 1, none⟩).1 5).held =
      (acctOr (use_tx Accounts.new ⟨.Deposit, 5, 1, some 100⟩).1 5).held) :=
  dispute_resolve_roundtrip (use_tx Accounts.new ⟨.Deposit, 5, 1, some 100⟩).1
    ⟨[⟨.Deposit, 5, 1, some 100⟩], rfl⟩ ⟨.Dispute, 5, 1, none⟩
    ⟨.Resolve, 5, 1, none⟩ rfl rfl rfl (by decide) (by decide)

/-! ### Claim C10: the same deposit can be disputed twice -/

/-- C10: the Ledger records no dispute status, so the same deposit id can
be successfully disputed more than once: with two 100-deposits for client
5, Dispute(5, id 1) succeeds and moves 100 from available to held, and a
second Dispute(5, id 1) succeeds again and moves another 100 — ending at
available 0, held 200. -/
theorem double_dispute_succeeds :
    ((use_tx Accounts.new ⟨.Deposit, 5, 1, some 100⟩).2 = none) ∧
    ((use_tx (applyAll Accounts.new [⟨.Deposit, 5, 1, some 100⟩])
        ⟨.Deposit, 5, 2, some 100⟩).2 = none) ∧
    ((applyAll Accounts.new
        [⟨.Deposit, 5, 1, some 100⟩, ⟨.Deposit, 5, 2, some 100⟩]).accounts 5 =
      some ⟨5, 200, 0, false⟩) ∧
    ((use_tx (applyAll Accounts.new
        [⟨.Deposit, 5, 1, some 100⟩, ⟨.Deposit, 5, 2, some 100⟩])
        ⟨.Dispute, 5, 1, none⟩).2 = none) ∧
    ((applyAll Accounts.new
        [⟨.Deposit, 5, 1, some 100⟩, ⟨.Deposit, 5, 2, some 100⟩,
         ⟨.Dispute, 5, 1, none⟩]).accounts 5 = some ⟨5, 100, 100, false⟩) ∧
    ((use_tx (applyAll Accounts.new
        [⟨.Deposit, 5, 1, some 100⟩, ⟨.Deposit, 5, 2, some 100⟩,
         ⟨.Dispute, 5, 1, none⟩]) ⟨.Dispute, 5, 1, none⟩).2 = none) ∧
    ((applyAll Accounts.new
        [⟨.Deposit, 5, 1, some 100⟩, ⟨.Deposit, 5, 2, some 100⟩,
         ⟨.Dispute, 5, 1, none⟩, ⟨.Dispute, 5, 1, none⟩]).accounts 5 =
      some ⟨5, 0, 200, false⟩) := by
  decide

end Payments
